import Mathlib

/-!
Verification of the SshRemoteCode repository against its specification.

The repository ships a demo (`src/demo/index.ts`, `src/demo/homeassistant-client.ts`)
and a connection configuration (`src/config.ts`); the remote-invocation substrate
itself (Transport Connection, Script Generator, Remote Executor, Call Proxy) is
distributed compiled, so it is modelled here from the specification's words.
The Home Assistant client is embedded directly from its TypeScript source.
-/

namespace SshRemote

/-! ## JSON values and the wire encoding

The wire protocol ships argument lists and result envelopes as single-line
JSON.  `Json` is the value model (numbers modelled as integers), `renderChars`
is the serializer (the shape `JSON.stringify` produces: no whitespace), and
`parseVal` is a fuel-indexed parser for exactly that grammar. -/

inductive Json where
  | null : Json
  | bool : Bool → Json
  | num : Int → Json
  | str : String → Json
  | arr : List Json → Json
  | obj : List (String × Json) → Json

def dquoteChar : Char := Char.ofNat 34

def bslashChar : Char := Char.ofNat 92

def nlChar : Char := Char.ofNat 10

def lbraceChar : Char := Char.ofNat 123

def rbraceChar : Char := Char.ofNat 125

def digitChar (d : Nat) : Char := Char.ofNat (48 + d)

def isDigitChar (c : Char) : Bool := 48 ≤ c.toNat && c.toNat ≤ 57

def charDigit (c : Char) : Nat := c.toNat - 48

/-- Big-endian decimal digits of a natural number (the digits of `0` are `[0]`). -/
def digitsBE (n : Nat) : List Nat := if n = 0 then [0] else (Nat.digits 10 n).reverse

def renderNat (n : Nat) : List Char := (digitsBE n).map digitChar

def renderInt (i : Int) : List Char :=
  if i < 0 then '-' :: renderNat i.natAbs else renderNat i.natAbs

/-- JSON string-body escaping: quote, backslash and newline get a backslash escape. -/
def escape : List Char → List Char
  | [] => []
  | c :: cs =>
    if c = dquoteChar then bslashChar :: dquoteChar :: escape cs
    else if c = bslashChar then bslashChar :: bslashChar :: escape cs
    else if c = nlChar then bslashChar :: 'n' :: escape cs
    else c :: escape cs

def renderString (s : List Char) : List Char :=
  dquoteChar :: escape s ++ [dquoteChar]

mutual

def renderChars : Json → List Char
  | Json.null => ['n', 'u', 'l', 'l']
  | Json.bool true => ['t', 'r', 'u', 'e']
  | Json.bool false => ['f', 'a', 'l', 's', 'e']
  | Json.num i => renderInt i
  | Json.str s => renderString s.data
  | Json.arr xs => '[' :: renderArr xs ++ [']']
  | Json.obj kvs => lbraceChar :: renderObjEntries kvs ++ [rbraceChar]

def renderArr : List Json → List Char
  | [] => []
  | x :: xs => renderChars x ++ renderArrTail xs

def renderArrTail : List Json → List Char
  | [] => []
  | x :: xs => ',' :: (renderChars x ++ renderArrTail xs)

def renderEntry : String × Json → List Char
  | (k, v) => renderString k.data ++ ':' :: renderChars v

def renderObjEntries : List (String × Json) → List Char
  | [] => []
  | kv :: kvs => renderEntry kv ++ renderObjTail kvs

def renderObjTail : List (String × Json) → List Char
  | [] => []
  | kv :: kvs => ',' :: (renderEntry kv ++ renderObjTail kvs)

end

/-- Parse the body of a JSON string literal (after the opening quote), undoing
`escape`; returns the decoded characters and the input after the closing quote. -/
def parseStringBody : List Char → Option (List Char × List Char)
  | [] => none
  | c :: cs =>
    if c = dquoteChar then some ([], cs)
    else if c = bslashChar then
      match cs with
      | [] => none
      | e :: cs2 =>
        if e = dquoteChar then (parseStringBody cs2).map (fun p => (dquoteChar :: p.1, p.2))
        else if e = bslashChar then (parseStringBody cs2).map (fun p => (bslashChar :: p.1, p.2))
        else if e = 'n' then (parseStringBody cs2).map (fun p => (nlChar :: p.1, p.2))
        else none
    else (parseStringBody cs).map (fun p => (c :: p.1, p.2))

/-- Expect the literal characters `lit` at the head of the input, yielding `v`. -/
def expectLit (v : Json) : List Char → List Char → Option (Json × List Char)
  | [], cs => some (v, cs)
  | _ :: _, [] => none
  | l :: ls, c :: cs => if c = l then expectLit v ls cs else none

/-- Take the maximal run of decimal digits from the head of the input. -/
def takeDigits : List Char → List Nat × List Char
  | [] => ([], [])
  | c :: cs =>
    if isDigitChar c then
      let p := takeDigits cs
      (charDigit c :: p.1, p.2)
    else ([], c :: cs)

def parseNatNum (cs : List Char) : Option (Nat × List Char) :=
  match takeDigits cs with
  | ([], _) => none
  | (ds, rest) => some (Nat.ofDigits 10 ds.reverse, rest)

mutual

def parseVal : Nat → List Char → Option (Json × List Char)
  | 0, _ => none
  | _ + 1, [] => none
  | fuel + 1, c :: r =>
    if c = 'n' then expectLit Json.null ['u', 'l', 'l'] r
    else if c = 't' then expectLit (Json.bool true) ['r', 'u', 'e'] r
    else if c = 'f' then expectLit (Json.bool false) ['a', 'l', 's', 'e'] r
    else if c = dquoteChar then
      match parseStringBody r with
      | none => none
      | some (s, r2) => some (Json.str (String.mk s), r2)
    else if c = '[' then
      match parseArrItems fuel r with
      | none => none
      | some (xs, r2) => some (Json.arr xs, r2)
    else if c = lbraceChar then
      match parseObjItems fuel r with
      | none => none
      | some (kvs, r2) => some (Json.obj kvs, r2)
    else if c = '-' then
      match parseNatNum r with
      | none => none
      | some (n, r2) => some (Json.num (-(n : Int)), r2)
    else if isDigitChar c then
      match parseNatNum (c :: r) with
      | none => none
      | some (n, r2) => some (Json.num (n : Int), r2)
    else none

def parseArrItems : Nat → List Char → Option (List Json × List Char)
  | 0, _ => none
  | _ + 1, [] => none
  | fuel + 1, c :: r =>
    if c = ']' then some ([], r)
    else
      match parseVal fuel (c :: r) with
      | none => none
      | some (v, r2) =>
        match parseArrTail fuel r2 with
        | none => none
        | some (vs, r3) => some (v :: vs, r3)

def parseArrTail : Nat → List Char → Option (List Json × List Char)
  | 0, _ => none
  | _ + 1, [] => none
  | fuel + 1, c :: r =>
    if c = ']' then some ([], r)
    else if c = ',' then
      match parseVal fuel r with
      | none => none
      | some (v, r2) =>
        match parseArrTail fuel r2 with
        | none => none
        | some (vs, r3) => some (v :: vs, r3)
    else none

def parseObjEntry : Nat → List Char → Option ((String × Json) × List Char)
  | 0, _ => none
  | fuel + 1, cs =>
    match parseStringBody cs with
    | none => none
    | some (k, r2) =>
      match r2 with
      | [] => none
      | c2 :: r3 =>
        if c2 = ':' then
          match parseVal fuel r3 with
          | none => none
          | some (v, r4) => some ((String.mk k, v), r4)
        else none

def parseObjItems : Nat → List Char → Option (List (String × Json) × List Char)
  | 0, _ => none
  | _ + 1, [] => none
  | fuel + 1, c :: r =>
    if c = rbraceChar then some ([], r)
    else if c = dquoteChar then
      match parseObjEntry fuel r with
      | none => none
      | some (kv, r2) =>
        match parseObjTail fuel r2 with
        | none => none
        | some (kvs, r3) => some (kv :: kvs, r3)
    else none

def parseObjTail : Nat → List Char → Option (List (String × Json) × List Char)
  | 0, _ => none
  | _ + 1, [] => none
  | fuel + 1, c :: r =>
    if c = rbraceChar then some ([], r)
    else if c = ',' then
      match r with
      | [] => none
      | c2 :: r2 =>
        if c2 = dquoteChar then
          match parseObjEntry fuel r2 with
          | none => none
          | some (kv, r3) =>
            match parseObjTail fuel r3 with
            | none => none
            | some (kvs, r4) => some (kv :: kvs, r4)
        else none
    else none

end

def Json.render (v : Json) : String := String.mk (renderChars v)

def Json.parse (s : String) : Option Json :=
  match parseVal (s.length + 1) s.data with
  | some (v, []) => some v
  | _ => none

/-- Does the input begin with something other than a decimal digit?  Numbers are
the one production of the wire grammar without a closing delimiter, so the
round-trip lemmas track this condition on the trailing input. -/
def notDigitStart : List Char → Bool
  | [] => true
  | c :: _ => !isDigitChar c

/-! ## The result envelope

Wire value returned by the remote program: exactly one of
`{success: true, result: v}` or `{success: false, error: message}`. -/

inductive Envelope where
  | success : Json → Envelope
  | failure : String → Envelope

/-- Modelled from the spec: the single JSON line the generated program prints,
`{"success":true,"result":<value>}` or `{"success":false,"error":<message>}`
(§4.2 steps 4–5); the library source that prints it ships compiled and is not
under `src/`. -/
def renderEnvelope : Envelope → String
  | Envelope.success v =>
      Json.render (Json.obj [("success", Json.bool true), ("result", v)])
  | Envelope.failure e =>
      Json.render (Json.obj [("success", Json.bool false), ("error", Json.str e)])

/-- Interpret a parsed JSON value as a result envelope, if it has exactly the
envelope shape. -/
def envelopeOfJson : Json → Option Envelope
  | Json.obj kvs =>
    match kvs with
    | [(k1, s), (k2, v)] =>
      if k1 = "success" then
        match s with
        | Json.bool true => if k2 = "result" then some (Envelope.success v) else none
        | Json.bool false =>
          if k2 = "error" then
            match v with
            | Json.str m => some (Envelope.failure m)
            | _ => none
          else none
        | _ => none
      else none
    | _ => none
  | _ => none

/-- Modelled from the spec: the caller-side envelope parser of the Remote
Executor (§4.3 step 6) — a stdout line is a well-formed envelope line when it
parses as JSON of exactly the envelope shape. -/
def parseEnvelopeLine (s : String) : Option Envelope :=
  (Json.parse s).bind envelopeOfJson

/-! ## Transport Connection lifecycle (modelled from the spec)

States `Idle → Connecting → Ready → Closing → Closed` with an `Errored`
absorbing state (§3); the implementing class ships compiled and is not under
`src/`. -/

inductive ConnState where
  | idle | connecting | ready | closing | closed | errored
deriving DecidableEq

/-- Error taxonomy of §7. -/
inductive RemoteError where
  | authenticationError
  | timeoutError
  | networkError
  | buildError (stderr : String)
  | notConnectedError
  | remoteExecutionError (exitCode : Int) (stdout : String) (stderr : String)
  | remoteLogicError (msg : String)
  | serializationError
deriving DecidableEq

/-- Connection-level errors: move the connection to `Errored` (§7). -/
def RemoteError.isConnectionLevel : RemoteError → Bool
  | RemoteError.authenticationError => true
  | RemoteError.networkError => true
  | RemoteError.buildError _ => true
  | _ => false

/-- Per-invocation errors: local to one call (§7). -/
def RemoteError.isInvocationLevel : RemoteError → Bool
  | RemoteError.remoteExecutionError _ _ _ => true
  | RemoteError.remoteLogicError _ => true
  | RemoteError.serializationError => true
  | _ => false

/-- Connection Configuration record, with the fields the demo's `config.ts`
populates (`SshRemoteCodeConfig`). -/
structure SshRemoteCodeConfig where
  host : String
  username : String
  privateKey : Option String
  password : Option String
  sandboxPath : String
  port : Nat
  connectTimeout : Nat
  readyTimeout : Nat
  preBuildCommand : Bool
  preBuildCustomCommand : Option String

/-- The demo's connection configuration (`src/config.ts`, `ubuntuConfig`). -/
def ubuntuConfig : SshRemoteCodeConfig where
  host := "192.168.1.65"
  username := "villafavero"
  privateKey := some ("C:\\Users\\faver\\.ssh\\id_ed25519")
  password := none
  sandboxPath := "/home/villafavero/testcode/dist"
  port := 22
  connectTimeout := 10000
  readyTimeout := 20000
  preBuildCommand := true
  preBuildCustomCommand := some ("npm install && npm run build")

/-- Outcome of the secure-shell handshake attempted by `connect()`. -/
inductive HandshakeOutcome where
  | ok | badCredential | timedOut | transportDrop

/-- Exit code and captured output of the blocking pre-build command. -/
structure BuildRun where
  exitCode : Int
  stdout : String
  stderr : String

/-- Modelled from the spec: `connect()` (§4.1) — the implementing class ships
compiled and is not under `src/`.  Establishes the session; on handshake
success, if a pre-build step is configured, runs it; a non-zero exit fails the
whole `connect()` with `BuildError` carrying captured stderr and the connection
ends `Errored`, not `Ready`. -/
def connect (cfg : SshRemoteCodeConfig) (hs : HandshakeOutcome) (build : BuildRun) :
    ConnState × Option RemoteError :=
  match hs with
  | HandshakeOutcome.badCredential => (ConnState.errored, some RemoteError.authenticationError)
  | HandshakeOutcome.timedOut => (ConnState.errored, some RemoteError.timeoutError)
  | HandshakeOutcome.transportDrop => (ConnState.errored, some RemoteError.networkError)
  | HandshakeOutcome.ok =>
    if cfg.preBuildCommand then
      if build.exitCode = 0 then (ConnState.ready, none)
      else (ConnState.errored, some (RemoteError.buildError build.stderr))
    else (ConnState.ready, none)

/-- One step of the shutdown sequence: `Ready`/`Errored` enter `Closing`, every
other state proceeds directly to `Closed` (shutting down a connection that
never opened, or one already closed, is a no-op). -/
def disconnectStep : ConnState → ConnState
  | ConnState.ready => ConnState.closing
  | ConnState.errored => ConnState.closing
  | _ => ConnState.closed

/-- Modelled from the spec: `disconnect()` (§4.1) — the implementing class
ships compiled and is not under `src/`.  Idempotent, transitions
`Ready`/`Errored` → `Closing` → `Closed`, safe to call multiple times,
never fails. -/
def disconnect (s : ConnState) : ConnState × Option RemoteError :=
  (disconnectStep (disconnectStep s), none)

/-! ## Remote Executor (modelled from the spec) -/

/-- An argument handed to the Call Proxy: either a JSON-representable value or
something with no wire representation (a function or binary value, §3). -/
inductive ArgValue where
  | json (v : Json)
  | functionValue
  | binaryValue

def ArgValue.serializable : ArgValue → Bool
  | ArgValue.json _ => true
  | _ => false

/-- A remote module: its exported members, each a function from a JSON argument
list to a JSON result or a thrown error message. -/
structure RemoteModule where
  exports : List (String × (List Json → Except String Json))

/-- Exit code and captured output of one remote process run. -/
structure ProcResult where
  exitCode : Int
  stdoutLines : List String
  stderr : String

/-- Modelled from the spec: the behaviour of the disposable program the Script
Generator emits (§4.2) — the generator ships compiled and is not under `src/`.
A failed module load crashes with non-zero exit and no envelope (step 6); a
missing export terminates with exit 0 and a failure envelope (steps 2 and 5);
otherwise the function's result or thrown message goes into the envelope
(steps 4–5). -/
def runGeneratedProgram (loaded : Option RemoteModule) (functionName : String)
    (args : List Json) : ProcResult :=
  match loaded with
  | none =>
    { exitCode := 1, stdoutLines := [], stderr := "Cannot find module" }
  | some m =>
    match m.exports.lookup functionName with
    | none =>
      { exitCode := 0
        stdoutLines :=
          [renderEnvelope (Envelope.failure (("Function ") ++ functionName ++ (" is not exported")))]
        stderr := "" }
    | some f =>
      match f args with
      | Except.ok v =>
        { exitCode := 0, stdoutLines := [renderEnvelope (Envelope.success v)], stderr := "" }
      | Except.error e =>
        { exitCode := 0, stdoutLines := [renderEnvelope (Envelope.failure e)], stderr := "" }

/-- How the `runCommand` step of one invocation went: the process completed
(with whatever exit code and output), or the transport itself failed. -/
inductive RunAttempt where
  | completed (r : ProcResult)
  | transportFailure

/-- Environment of one invocation: the run outcome and whether the final
best-effort `deleteFile` on the disposable artifact would succeed. -/
structure ExecEnv where
  run : RunAttempt
  deleteSucceeds : Bool

/-- Result of `executeFunction`: the caller-visible outcome, whether cleanup of
the disposable artifact was attempted, the secondary cleanup diagnostic, and
the connection state after the call. -/
structure ExecResult where
  outcome : Except RemoteError Json
  deleteAttempted : Bool
  cleanupDiagnostic : Option String
  connState : ConnState

/-- Modelled from the spec: `RemoteExecutor.executeFunction` (§4.3) — the
executor ships compiled and is not under `src/`.  Validates `Ready`, rejects
non-serializable arguments before dispatch, runs the artifact, always attempts
`deleteFile` afterwards (cleanup failure is only a secondary diagnostic),
then settles the call from the sole well-formed envelope line, or fails with
`RemoteExecutionError` when there is none. -/
def executeFunction (conn : ConnState) (args : List ArgValue) (env : ExecEnv) : ExecResult :=
  if conn = ConnState.ready then
    if args.all ArgValue.serializable then
      match env.run with
      | RunAttempt.transportFailure =>
        { outcome := Except.error RemoteError.networkError
          deleteAttempted := true
          cleanupDiagnostic := if env.deleteSucceeds then none else some ("could not delete remote artifact")
          connState := ConnState.errored }
      | RunAttempt.completed r =>
        let diag : Option String :=
          if env.deleteSucceeds then none else some ("could not delete remote artifact")
        match r.stdoutLines.filterMap parseEnvelopeLine with
        | [Envelope.success v] =>
          { outcome := Except.ok v, deleteAttempted := true
            cleanupDiagnostic := diag, connState := ConnState.ready }
        | [Envelope.failure msg] =>
          { outcome := Except.error (RemoteError.remoteLogicError msg), deleteAttempted := true
            cleanupDiagnostic := diag, connState := ConnState.ready }
        | _ =>
          { outcome := Except.error
              (RemoteError.remoteExecutionError r.exitCode
                (String.intercalate ("\n") r.stdoutLines) r.stderr)
            deleteAttempted := true
            cleanupDiagnostic := diag, connState := ConnState.ready }
    else
      { outcome := Except.error RemoteError.serializationError, deleteAttempted := false
        cleanupDiagnostic := none, connState := conn }
  else
    { outcome := Except.error RemoteError.notConnectedError, deleteAttempted := false
      cleanupDiagnostic := none, connState := conn }

/-! ## Home Assistant client (`src/demo/homeassistant-client.ts`)

The axios HTTP layer is abstracted as an oracle (`HAServer`): each field gives
the response a request would get, `none` standing for a request that throws.
Each method returns its value together with the list of HTTP requests it
issued, so "no request is sent" is a provable statement. -/

/-- The `state === 'on' ? 'on' : 'off'` normalisation in `getLightState`,
modelling the `'on' | 'off'` union type. -/
def normalizeState (s : String) : String := if s = "on" then "on" else "off"

/-- Raw entity state object as the `/api/states` endpoints return it. -/
structure HAState where
  entity_id : String
  state : String
  brightness : Option Int
  rgb_color : Option (Int × Int × Int)

/-- `LightState` interface of the client. -/
structure LightState where
  entityId : String
  state : String
  brightness : Option Int
  color : Option (Int × Int × Int)

/-- Service-call payload built by `turnLightOn` / `turnLightOff`. -/
structure ServiceData where
  entity_id : String
  brightness : Option Int
  rgb_color : Option (List Int)

/-- An HTTP request the client can issue. -/
inductive HttpRequest where
  | get (path : String)
  | post (path : String) (body : ServiceData)

/-- The network oracle: what each request would yield.  `none` models a request
that fails (axios throwing). -/
structure HAServer where
  getStateResp : String → Option HAState
  postResp : HttpRequest → Option Int
  statesResp : Option (List HAState)

def statePath (entityId : String) : String := ("/api/states/") ++ entityId

/-- `getLightState`: GET the entity state and normalise it; `null` on failure. -/
def getLightState (srv : HAServer) (entityId : String) :
    Option LightState × List HttpRequest :=
  let req := HttpRequest.get (statePath entityId)
  match srv.getStateResp entityId with
  | none => (none, [req])
  | some raw =>
    (some
      { entityId := raw.entity_id
        state := normalizeState raw.state
        brightness := raw.brightness
        color := raw.rgb_color }, [req])

/-- `turnLightOn`: POST `light/turn_on` with optional brightness and colour;
`true` iff the response status is 200, `false` when the request throws. -/
def turnLightOn (srv : HAServer) (entityId : String) (brightness : Option Int)
    (rgbColor : Option (Int × Int × Int)) : Bool × List HttpRequest :=
  let sd : ServiceData :=
    { entity_id := entityId
      brightness := brightness
      rgb_color := rgbColor.map (fun c => [c.1, c.2.1, c.2.2]) }
  let req := HttpRequest.post ("/api/services/light/turn_on") sd
  match srv.postResp req with
  | some status => (status = 200, [req])
  | none => (false, [req])

/-- `turnLightOff`: POST `light/turn_off`; `true` iff the status is 200. -/
def turnLightOff (srv : HAServer) (entityId : String) : Bool × List HttpRequest :=
  let sd : ServiceData := { entity_id := entityId, brightness := none, rgb_color := none }
  let req := HttpRequest.post ("/api/services/light/turn_off") sd
  match srv.postResp req with
  | some status => (status = 200, [req])
  | none => (false, [req])

/-- `toggleLight`: read the current state; `false` when it is unavailable,
otherwise turn the light off when on and on (no brightness) when off. -/
def toggleLight (srv : HAServer) (entityId : String) : Bool × List HttpRequest :=
  let g := getLightState srv entityId
  match g.1 with
  | none => (false, g.2)
  | some cur =>
    if cur.state = "on" then
      let t := turnLightOff srv entityId
      (t.1, g.2 ++ t.2)
    else
      let t := turnLightOn srv entityId none none
      (t.1, g.2 ++ t.2)

/-- The `state.entity_id.startsWith('light.')` test of `getAllLights`. -/
def strStartsWith (s p : String) : Bool := p.data.isPrefixOf s.data

/-- `getAllLights`: GET `/api/states` and keep the `light.`-prefixed entity
ids; the empty list when the request throws. -/
def getAllLights (srv : HAServer) : List String × List HttpRequest :=
  let req := HttpRequest.get ("/api/states")
  match srv.statesResp with
  | none => ([], [req])
  | some states =>
    ((states.filter (fun s => strStartsWith s.entity_id ("light."))).map
      (fun s => s.entity_id), [req])

/-- `setLightBrightness`: reject a brightness outside 0–255 before any request,
otherwise delegate to `turnLightOn`. -/
def setLightBrightness (srv : HAServer) (entityId : String) (brightness : Int) :
    Bool × List HttpRequest :=
  if brightness < 0 ∨ brightness > 255 then (false, [])
  else turnLightOn srv entityId (some brightness) none

/-! ## Concrete instances used by the witnesses -/

/-- A remote module exporting nothing. -/
def emptyModule : RemoteModule where
  exports := []

/-- A completed run that produced no output at all. -/
def silentRun : ProcResult where
  exitCode := 1
  stdoutLines := []
  stderr := ""

/-- A completed run whose stdout is exactly one success envelope carrying `5`. -/
def successRun : ProcResult where
  exitCode := 0
  stdoutLines := [renderEnvelope (Envelope.success (Json.num 5))]
  stderr := ""

/-- A pre-build run that exited non-zero. -/
def failedBuild : BuildRun where
  exitCode := 1
  stdout := ""
  stderr := "npm ERR! build failed"

/-- A Home Assistant oracle on which every request throws. -/
def downServer : HAServer where
  getStateResp := fun _ => none
  postResp := fun _ => none
  statesResp := none

/-- An oracle with one light on, one switch, and all service calls succeeding. -/
def upServer : HAServer where
  getStateResp := fun e =>
    some { entity_id := e, state := "on", brightness := some 128, rgb_color := none }
  postResp := fun _ => some 200
  statesResp :=
    some [ { entity_id := "light.bedroom", state := "on", brightness := some 128, rgb_color := none },
           { entity_id := "switch.fan", state := "off", brightness := none, rgb_color := none } ]

/-- An oracle reporting every light as off. -/
def offServer : HAServer where
  getStateResp := fun e =>
    some { entity_id := e, state := "off", brightness := none, rgb_color := none }
  postResp := fun _ => some 200
  statesResp := some []

/-! ## Round-trip lemmas for the wire encoding -/

theorem stringMk_data (s : String) : String.mk s.data = s := rfl

theorem digitChar_toNat {d : Nat} (h : d < 10) : (digitChar d).toNat = 48 + d := by
  interval_cases d <;> decide

theorem isDigitChar_digitChar {d : Nat} (h : d < 10) : isDigitChar (digitChar d) = true := by
  interval_cases d <;> decide

theorem charDigit_digitChar {d : Nat} (h : d < 10) : charDigit (digitChar d) = d := by
  interval_cases d <;> decide

theorem digit_ne {c : Char} (h : isDigitChar c = true) :
    c ≠ 'n' ∧ c ≠ 't' ∧ c ≠ 'f' ∧ c ≠ dquoteChar ∧ c ≠ '[' ∧ c ≠ lbraceChar ∧ c ≠ '-' ∧
    c ≠ ']' ∧ c ≠ ',' ∧ c ≠ rbraceChar ∧ c ≠ ':' := by
  refine ⟨?_, ?_, ?_, ?_, ?_, ?_, ?_, ?_, ?_, ?_, ?_⟩ <;>
    · intro hc
      subst hc
      exact absurd h (by decide)

theorem expectLit_self (v : Json) (lit : List Char) :
    ∀ rest, expectLit v lit (lit ++ rest) = some (v, rest) := by
  induction lit with
  | nil => intro rest; simp [expectLit]
  | cons l ls ih => intro rest; simp [expectLit, ih]

theorem parseStringBody_escape (s : List Char) :
    ∀ rest, parseStringBody (escape s ++ dquoteChar :: rest) = some (s, rest) := by
  induction s with
  | nil =>
    intro rest
    rw [show escape [] ++ dquoteChar :: rest = dquoteChar :: rest from by simp [escape],
      parseStringBody.eq_def]
    simp
  | cons c cs ih =>
    intro rest
    have hq : ¬ bslashChar = dquoteChar := by decide
    have hn : ¬ 'n' = dquoteChar := by decide
    have hn2 : ¬ 'n' = bslashChar := by decide
    by_cases h1 : c = dquoteChar
    · subst h1
      rw [show escape (dquoteChar :: cs) ++ dquoteChar :: rest =
            bslashChar :: dquoteChar :: (escape cs ++ dquoteChar :: rest) from by simp [escape],
        parseStringBody.eq_def]
      simp [hq, ih rest]
    · by_cases h2 : c = bslashChar
      · subst h2
        rw [show escape (bslashChar :: cs) ++ dquoteChar :: rest =
              bslashChar :: bslashChar :: (escape cs ++ dquoteChar :: rest) from by
                simp [escape, hq],
          parseStringBody.eq_def]
        simp [hq, ih rest]
      · by_cases h3 : c = nlChar
        · subst h3
          rw [show escape (nlChar :: cs) ++ dquoteChar :: rest =
                bslashChar :: 'n' :: (escape cs ++ dquoteChar :: rest) from by
                  simp [escape, show ¬ nlChar = dquoteChar from by decide,
                    show ¬ nlChar = bslashChar from by decide],
            parseStringBody.eq_def]
          simp [hq, hn, hn2, ih rest]
        · rw [show escape (c :: cs) ++ dquoteChar :: rest =
                c :: (escape cs ++ dquoteChar :: rest) from by simp [escape, h1, h2, h3],
            parseStringBody.eq_def]
          simp [h1, h2, ih rest]

theorem takeDigits_append (ds : List Nat) (rest : List Char)
    (hds : ∀ d ∈ ds, d < 10) (hrest : notDigitStart rest = true) :
    takeDigits (ds.map digitChar ++ rest) = (ds, rest) := by
  induction ds with
  | nil =>
    cases rest with
    | nil => rfl
    | cons c cs =>
      have hc : isDigitChar c = false := by
        simpa [notDigitStart] using hrest
      simp [takeDigits, hc]
  | cons d ds ih =>
    have hd : d < 10 := hds d (by simp)
    simp [takeDigits, isDigitChar_digitChar hd, charDigit_digitChar hd,
      ih (fun x hx => hds x (by simp [hx]))]

theorem digitsBE_lt (n : Nat) : ∀ d ∈ digitsBE n, d < 10 := by
  intro d hd
  by_cases h : n = 0
  · subst h
    simp [digitsBE] at hd
    omega
  · simp [digitsBE, h] at hd
    exact Nat.digits_lt_base (by norm_num) hd

theorem digitsBE_ne_nil (n : Nat) : digitsBE n ≠ [] := by
  by_cases h : n = 0
  · subst h; simp [digitsBE]
  · simp [digitsBE, h, Nat.digits_ne_nil_iff_ne_zero]

theorem ofDigits_digitsBE (n : Nat) : Nat.ofDigits 10 (digitsBE n).reverse = n := by
  by_cases h : n = 0
  · subst h; simp [digitsBE, Nat.ofDigits]
  · simp [digitsBE, h, Nat.ofDigits_digits]

theorem parseNatNum_render (n : Nat) (rest : List Char) (hrest : notDigitStart rest = true) :
    parseNatNum (renderNat n ++ rest) = some (n, rest) := by
  unfold parseNatNum renderNat
  rw [takeDigits_append (digitsBE n) rest (digitsBE_lt n) hrest]
  obtain ⟨d, ds, hds⟩ := List.exists_cons_of_ne_nil (digitsBE_ne_nil n)
  have hval := ofDigits_digitsBE n
  rw [hds] at hval ⊢
  simpa using hval

theorem renderChars_length_pos (v : Json) : 1 ≤ (renderChars v).length := by
  cases v with
  | null => simp [renderChars]
  | bool b => cases b <;> simp [renderChars]
  | num i =>
    simp only [renderChars, renderInt]
    by_cases h : i < 0
    · simp [h]
    · obtain ⟨d, ds, hds⟩ := List.exists_cons_of_ne_nil (digitsBE_ne_nil i.natAbs)
      simp [h, renderNat, hds]
  | str s => simp [renderChars, renderString]
  | arr xs => simp [renderChars]
  | obj kvs => simp [renderChars]

theorem renderString_length (l : List Char) : 2 ≤ (renderString l).length := by
  simp [renderString]

theorem renderChars_head (v : Json) :
    ∃ c t, renderChars v = c :: t ∧ c ≠ ']' ∧ c ≠ ',' ∧ c ≠ rbraceChar := by
  cases v with
  | null =>
    refine ⟨'n', ['u', 'l', 'l'], ?_, by decide, by decide, by decide⟩
    simp [renderChars]
  | bool b =>
    cases b
    · refine ⟨'f', ['a', 'l', 's', 'e'], ?_, by decide, by decide, by decide⟩
      simp [renderChars]
    · refine ⟨'t', ['r', 'u', 'e'], ?_, by decide, by decide, by decide⟩
      simp [renderChars]
  | num i =>
    by_cases h : i < 0
    · refine ⟨'-', renderNat i.natAbs, ?_, by decide, by decide, by decide⟩
      simp [renderChars, renderInt, h]
    · obtain ⟨d, ds, hds⟩ := List.exists_cons_of_ne_nil (digitsBE_ne_nil i.natAbs)
      have hd : d < 10 := digitsBE_lt i.natAbs d (by rw [hds]; simp)
      have hne := digit_ne (isDigitChar_digitChar hd)
      refine ⟨digitChar d, ds.map digitChar, ?_, hne.2.2.2.2.2.2.2.1, hne.2.2.2.2.2.2.2.2.1,
        hne.2.2.2.2.2.2.2.2.2.1⟩
      simp [renderChars, renderInt, h, renderNat, hds]
  | str s =>
    refine ⟨dquoteChar, escape s.data ++ [dquoteChar], ?_, by decide, by decide, by decide⟩
    simp [renderChars, renderString]
  | arr xs =>
    refine ⟨'[', renderArr xs ++ [']'], ?_, by decide, by decide, by decide⟩
    simp [renderChars]
  | obj kvs =>
    refine ⟨lbraceChar, renderObjEntries kvs ++ [rbraceChar], ?_, by decide, by decide, by decide⟩
    simp [renderChars]

theorem notDigitStart_arrTail (xs : List Json) (rest : List Char) :
    notDigitStart (renderArrTail xs ++ ']' :: rest) = true := by
  cases xs with
  | nil =>
    simp only [renderArrTail, List.nil_append]
    rfl
  | cons x xs =>
    simp only [renderArrTail, List.cons_append]
    rfl

theorem notDigitStart_objTail (kvs : List (String × Json)) (rest : List Char) :
    notDigitStart (renderObjTail kvs ++ rbraceChar :: rest) = true := by
  cases kvs with
  | nil =>
    simp only [renderObjTail, List.nil_append]
    rfl
  | cons kv kvs =>
    simp only [renderObjTail, List.cons_append]
    rfl

theorem parseVal_step (fuel : Nat) (c : Char) (r : List Char) :
    parseVal (fuel + 1) (c :: r) =
      (if c = 'n' then expectLit Json.null ['u', 'l', 'l'] r
      else if c = 't' then expectLit (Json.bool true) ['r', 'u', 'e'] r
      else if c = 'f' then expectLit (Json.bool false) ['a', 'l', 's', 'e'] r
      else if c = dquoteChar then
        match parseStringBody r with
        | none => none
        | some (s, r2) => some (Json.str (String.mk s), r2)
      else if c = '[' then
        match parseArrItems fuel r with
        | none => none
        | some (xs, r2) => some (Json.arr xs, r2)
      else if c = lbraceChar then
        match parseObjItems fuel r with
        | none => none
        | some (kvs, r2) => some (Json.obj kvs, r2)
      else if c = '-' then
        match parseNatNum r with
        | none => none
        | some (n, r2) => some (Json.num (-(n : Int)), r2)
      else if isDigitChar c then
        match parseNatNum (c :: r) with
        | none => none
        | some (n, r2) => some (Json.num (n : Int), r2)
      else none) := by
  rw [parseVal.eq_def]

theorem parseArrItems_step (fuel : Nat) (c : Char) (r : List Char) :
    parseArrItems (fuel + 1) (c :: r) =
      (if c = ']' then some ([], r)
      else
        match parseVal fuel (c :: r) with
        | none => none
        | some (v, r2) =>
          match parseArrTail fuel r2 with
          | none => none
          | some (vs, r3) => some (v :: vs, r3)) := by
  rw [parseArrItems.eq_def]

theorem parseArrTail_step (fuel : Nat) (c : Char) (r : List Char) :
    parseArrTail (fuel + 1) (c :: r) =
      (if c = ']' then some ([], r)
      else if c = ',' then
        match parseVal fuel r with
        | none => none
        | some (v, r2) =>
          match parseArrTail fuel r2 with
          | none => none
          | some (vs, r3) => some (v :: vs, r3)
      else none) := by
  rw [parseArrTail.eq_def]

theorem parseObjEntry_step (fuel : Nat) (cs : List Char) :
    parseObjEntry (fuel + 1) cs =
      (match parseStringBody cs with
      | none => none
      | some (k, r2) =>
        match r2 with
        | [] => none
        | c2 :: r3 =>
          if c2 = ':' then
            match parseVal fuel r3 with
            | none => none
            | some (v, r4) => some ((String.mk k, v), r4)
          else none) := by
  rw [parseObjEntry.eq_def]

theorem parseObjItems_step (fuel : Nat) (c : Char) (r : List Char) :
    parseObjItems (fuel + 1) (c :: r) =
      (if c = rbraceChar then some ([], r)
      else if c = dquoteChar then
        match parseObjEntry fuel r with
        | none => none
        | some (kv, r2) =>
          match parseObjTail fuel r2 with
          | none => none
          | some (kvs, r3) => some (kv :: kvs, r3)
      else none) := by
  rw [parseObjItems.eq_def]

theorem parseObjTail_step (fuel : Nat) (c : Char) (r : List Char) :
    parseObjTail (fuel + 1) (c :: r) =
      (if c = rbraceChar then some ([], r)
      else if c = ',' then
        match r with
        | [] => none
        | c2 :: r2 =>
          if c2 = dquoteChar then
            match parseObjEntry fuel r2 with
            | none => none
            | some (kv, r3) =>
              match parseObjTail fuel r3 with
              | none => none
              | some (kvs, r4) => some (kv :: kvs, r4)
          else none
      else none) := by
  rw [parseObjTail.eq_def]

/-- The heart of the wire-format verification: the fuel-indexed parser inverts
the renderer, for every JSON value, with any non-digit-initial trailing
input, once the fuel covers the rendered length. -/
theorem parse_render_fuel (fuel : Nat) :
    (∀ v rest, (renderChars v).length ≤ fuel → notDigitStart rest = true →
      parseVal fuel (renderChars v ++ rest) = some (v, rest)) ∧
    (∀ xs rest, (renderArr xs).length + 1 ≤ fuel →
      parseArrItems fuel (renderArr xs ++ ']' :: rest) = some (xs, rest)) ∧
    (∀ xs rest, (renderArrTail xs).length + 1 ≤ fuel →
      parseArrTail fuel (renderArrTail xs ++ ']' :: rest) = some (xs, rest)) ∧
    (∀ kd v rest, (renderChars v).length + 1 ≤ fuel → notDigitStart rest = true →
      parseObjEntry fuel (escape kd ++ dquoteChar :: ':' :: (renderChars v ++ rest)) =
        some ((String.mk kd, v), rest)) ∧
    (∀ kvs rest, (renderObjEntries kvs).length + 1 ≤ fuel →
      parseObjItems fuel (renderObjEntries kvs ++ rbraceChar :: rest) = some (kvs, rest)) ∧
    (∀ kvs rest, (renderObjTail kvs).length + 1 ≤ fuel →
      parseObjTail fuel (renderObjTail kvs ++ rbraceChar :: rest) = some (kvs, rest)) := by
  induction fuel with
  | zero =>
    refine ⟨?_, ?_, ?_, ?_, ?_, ?_⟩
    · intro v rest h _
      have := renderChars_length_pos v
      exact absurd h (by omega)
    · intro xs rest h
      exact absurd h (by omega)
    · intro xs rest h
      exact absurd h (by omega)
    · intro kd v rest h _
      exact absurd h (by omega)
    · intro kvs rest h
      exact absurd h (by omega)
    · intro kvs rest h
      exact absurd h (by omega)
  | succ fuel ih =>
    obtain ⟨ihP, ihQ, ihR, ihU, ihS, ihT⟩ := ih
    refine ⟨?_, ?_, ?_, ?_, ?_, ?_⟩
    · -- parseVal inverts renderChars
      intro v rest hlen hrest
      cases v with
      | null =>
        rw [show renderChars Json.null ++ rest = 'n' :: ('u' :: 'l' :: 'l' :: rest) from by
          simp [renderChars], parseVal_step, if_pos rfl]
        exact expectLit_self Json.null ['u', 'l', 'l'] rest
      | bool b =>
        cases b
        · rw [show renderChars (Json.bool false) ++ rest = 'f' :: ('a' :: 'l' :: 's' :: 'e' :: rest)
            from by simp [renderChars], parseVal_step,
            if_neg (by decide), if_neg (by decide), if_pos rfl]
          exact expectLit_self (Json.bool false) ['a', 'l', 's', 'e'] rest
        · rw [show renderChars (Json.bool true) ++ rest = 't' :: ('r' :: 'u' :: 'e' :: rest)
            from by simp [renderChars], parseVal_step,
            if_neg (by decide), if_pos rfl]
          exact expectLit_self (Json.bool true) ['r', 'u', 'e'] rest
      | num i =>
        by_cases hneg : i < 0
        · rw [show renderChars (Json.num i) ++ rest = '-' :: (renderNat i.natAbs ++ rest) from by
            simp [renderChars, renderInt, hneg], parseVal_step,
            if_neg (by decide), if_neg (by decide), if_neg (by decide), if_neg (by decide),
            if_neg (by decide), if_neg (by decide), if_pos rfl]
          simp only [parseNatNum_render i.natAbs rest hrest]
          have hv : (-(i.natAbs : Int)) = i := by omega
          rw [hv]
        · obtain ⟨d, ds, hds⟩ := List.exists_cons_of_ne_nil (digitsBE_ne_nil i.natAbs)
          have hd : d < 10 := digitsBE_lt i.natAbs d (by rw [hds]; simp)
          have hdig := isDigitChar_digitChar hd
          have hne := digit_ne hdig
          rw [show renderChars (Json.num i) ++ rest = digitChar d :: (ds.map digitChar ++ rest)
            from by simp [renderChars, renderInt, hneg, renderNat, hds], parseVal_step,
            if_neg hne.1, if_neg hne.2.1, if_neg hne.2.2.1, if_neg hne.2.2.2.1,
            if_neg hne.2.2.2.2.1, if_neg hne.2.2.2.2.2.1, if_neg hne.2.2.2.2.2.2.1,
            if_pos hdig,
            show digitChar d :: (ds.map digitChar ++ rest) = renderNat i.natAbs ++ rest from by
              simp [renderNat, hds]]
          simp only [parseNatNum_render i.natAbs rest hrest]
          have hv : ((i.natAbs : Int)) = i := by omega
          rw [hv]
      | str s =>
        rw [show renderChars (Json.str s) ++ rest =
            dquoteChar :: (escape s.data ++ dquoteChar :: rest) from by
          simp [renderChars, renderString], parseVal_step,
          if_neg (by decide), if_neg (by decide), if_neg (by decide), if_pos rfl]
        simp only [parseStringBody_escape s.data rest]
      | arr xs =>
        have hm : (renderArr xs).length + 1 ≤ fuel := by
          have : (renderChars (Json.arr xs)).length = (renderArr xs).length + 2 := by
            simp [renderChars]
          omega
        rw [show renderChars (Json.arr xs) ++ rest = '[' :: (renderArr xs ++ ']' :: rest) from by
          simp [renderChars], parseVal_step,
          if_neg (by decide), if_neg (by decide), if_neg (by decide), if_neg (by decide),
          if_pos rfl]
        simp only [ihQ xs rest hm]
      | obj kvs =>
        have hm : (renderObjEntries kvs).length + 1 ≤ fuel := by
          have : (renderChars (Json.obj kvs)).length = (renderObjEntries kvs).length + 2 := by
            simp [renderChars]
          omega
        rw [show renderChars (Json.obj kvs) ++ rest =
            lbraceChar :: (renderObjEntries kvs ++ rbraceChar :: rest) from by
          simp [renderChars], parseVal_step,
          if_neg (by decide), if_neg (by decide), if_neg (by decide), if_neg (by decide),
          if_neg (by decide), if_pos rfl]
        simp only [ihS kvs rest hm]
    · -- parseArrItems inverts renderArr
      intro xs rest hlen
      cases xs with
      | nil =>
        rw [show renderArr [] ++ ']' :: rest = ']' :: rest from by simp [renderArr],
          parseArrItems_step, if_pos rfl]
      | cons x xs =>
        obtain ⟨c0, t0, hrc, hc1, _, _⟩ := renderChars_head x
        have hlen2 : (renderChars x).length + (renderArrTail xs).length + 1 ≤ fuel + 1 := by
          have : (renderArr (x :: xs)).length =
              (renderChars x).length + (renderArrTail xs).length := by
            simp [renderArr]
          omega
        have hposx := renderChars_length_pos x
        have hshape : renderArr (x :: xs) ++ ']' :: rest =
            c0 :: (t0 ++ (renderArrTail xs ++ ']' :: rest)) := by
          simp [renderArr, hrc]
        rw [hshape, parseArrItems_step, if_neg hc1]
        have hx : parseVal fuel (c0 :: (t0 ++ (renderArrTail xs ++ ']' :: rest))) =
            some (x, renderArrTail xs ++ ']' :: rest) := by
          rw [show c0 :: (t0 ++ (renderArrTail xs ++ ']' :: rest)) =
              renderChars x ++ (renderArrTail xs ++ ']' :: rest) from by simp [hrc]]
          exact ihP x _ (by omega) (notDigitStart_arrTail xs rest)
        simp only [hx, ihR xs rest (by omega)]
    · -- parseArrTail inverts renderArrTail
      intro xs rest hlen
      cases xs with
      | nil =>
        rw [show renderArrTail [] ++ ']' :: rest = ']' :: rest from by simp [renderArrTail],
          parseArrTail_step, if_pos rfl]
      | cons x xs =>
        have hlen2 : (renderChars x).length + (renderArrTail xs).length + 2 ≤ fuel + 1 := by
          have : (renderArrTail (x :: xs)).length =
              (renderChars x).length + (renderArrTail xs).length + 1 := by
            simp [renderArrTail]
          omega
        rw [show renderArrTail (x :: xs) ++ ']' :: rest =
            ',' :: (renderChars x ++ (renderArrTail xs ++ ']' :: rest)) from by
          simp [renderArrTail], parseArrTail_step, if_neg (by decide), if_pos rfl]
        simp only [ihP x _ (by omega) (notDigitStart_arrTail xs rest),
          ihR xs rest (by omega)]
    · -- parseObjEntry inverts one rendered entry body
      intro kd v rest hlen hrest
      rw [parseObjEntry_step]
      simp only [parseStringBody_escape kd (':' :: (renderChars v ++ rest))]
      simp [ihP v rest (by omega) hrest]
    · -- parseObjItems inverts renderObjEntries
      intro kvs rest hlen
      cases kvs with
      | nil =>
        rw [show renderObjEntries [] ++ rbraceChar :: rest = rbraceChar :: rest from by
          simp [renderObjEntries], parseObjItems_step, if_pos rfl]
      | cons kv kvs =>
        obtain ⟨k, v⟩ := kv
        have hstr := renderString_length k.data
        have hrsl : (renderString k.data).length = (escape k.data).length + 2 := by
          simp [renderString]
        have hlen2 : (renderString k.data).length + 1 + (renderChars v).length +
            (renderObjTail kvs).length + 1 ≤ fuel + 1 := by
          have : (renderObjEntries ((k, v) :: kvs)).length =
              (renderString k.data).length + 1 + (renderChars v).length +
                (renderObjTail kvs).length := by
            simp [renderObjEntries, renderEntry]
            omega
          omega
        rw [show renderObjEntries ((k, v) :: kvs) ++ rbraceChar :: rest =
            dquoteChar :: (escape k.data ++ dquoteChar :: ':' ::
              (renderChars v ++ (renderObjTail kvs ++ rbraceChar :: rest))) from by
          simp [renderObjEntries, renderEntry, renderString],
          parseObjItems_step, if_neg (by decide), if_pos rfl]
        simp only [ihU k.data v _ (by omega) (notDigitStart_objTail kvs rest),
          ihT kvs rest (by omega), stringMk_data]
    · -- parseObjTail inverts renderObjTail
      intro kvs rest hlen
      cases kvs with
      | nil =>
        rw [show renderObjTail [] ++ rbraceChar :: rest = rbraceChar :: rest from by
          simp [renderObjTail], parseObjTail_step, if_pos rfl]
      | cons kv kvs =>
        obtain ⟨k, v⟩ := kv
        have hstr := renderString_length k.data
        have hrsl : (renderString k.data).length = (escape k.data).length + 2 := by
          simp [renderString]
        have hlen2 : (renderString k.data).length + 1 + (renderChars v).length +
            (renderObjTail kvs).length + 2 ≤ fuel + 1 := by
          have : (renderObjTail ((k, v) :: kvs)).length =
              (renderString k.data).length + 1 + (renderChars v).length +
                (renderObjTail kvs).length + 1 := by
            simp [renderObjTail, renderEntry]
            omega
          omega
        rw [show renderObjTail ((k, v) :: kvs) ++ rbraceChar :: rest =
            ',' :: (dquoteChar :: (escape k.data ++ dquoteChar :: ':' ::
              (renderChars v ++ (renderObjTail kvs ++ rbraceChar :: rest)))) from by
          simp [renderObjTail, renderEntry, renderString],
          parseObjTail_step, if_neg (by decide), if_pos rfl]
        simp [ihU k.data v (renderObjTail kvs ++ rbraceChar :: rest) (by omega)
            (notDigitStart_objTail kvs rest),
          ihT kvs rest (by omega), stringMk_data]

/-- Parsing inverts rendering on whole strings. -/
theorem Json.parse_render (v : Json) : Json.parse (Json.render v) = some v := by
  have h := (parse_render_fuel ((renderChars v).length + 1)).1 v [] (by omega) rfl
  rw [List.append_nil] at h
  unfold Json.parse Json.render
  simp only [show (String.mk (renderChars v)).data = renderChars v from rfl,
    show (String.mk (renderChars v)).length = (renderChars v).length from rfl]
  rw [h]

/-- The envelope encoding round-trips: the caller-side parser recovers exactly
the envelope the generated program printed. -/
theorem parseEnvelopeLine_renderEnvelope (e : Envelope) :
    parseEnvelopeLine (renderEnvelope e) = some e := by
  cases e with
  | success v =>
    simp only [renderEnvelope, parseEnvelopeLine, Json.parse_render, Option.bind_some]
    simp [envelopeOfJson]
  | failure msg =>
    simp only [renderEnvelope, parseEnvelopeLine, Json.parse_render, Option.bind_some]
    simp [envelopeOfJson]

/-- Arguments shipped as JSON values are all serializable. -/
theorem map_json_serializable (l : List Json) :
    (l.map ArgValue.json).all ArgValue.serializable = true := by
  induction l with
  | nil => rfl
  | cons x xs ih => simp [ArgValue.serializable, ih]

/-! ## Claim theorems -/

/-- C1: when the remote run prints exactly one well-formed envelope line,
`executeFunction` resolves the call to the envelope's unwrapped `result` value
on `success:true`, and fails it with `RemoteLogicError` carrying the envelope's
`error` message on `success:false`. -/
theorem executeFunction_settles_from_envelope (args : List ArgValue) (env : ExecEnv)
    (r : ProcResult) (e : Envelope)
    (hser : args.all ArgValue.serializable = true)
    (hrun : env.run = RunAttempt.completed r)
    (henv : r.stdoutLines.filterMap parseEnvelopeLine = [e]) :
    (∀ v, e = Envelope.success v →
      (executeFunction ConnState.ready args env).outcome = Except.ok v) ∧
    (∀ msg, e = Envelope.failure msg →
      (executeFunction ConnState.ready args env).outcome =
        Except.error (RemoteError.remoteLogicError msg)) := by
  constructor
  · intro v hv
    subst hv
    simp [executeFunction, hser, hrun, henv]
  · intro msg hm
    subst hm
    simp [executeFunction, hser, hrun, henv]

/-- C1 witness: a run whose single stdout line is the success envelope carrying
`5` resolves the call to the value `5` itself. -/
theorem executeFunction_settles_from_envelope_witness :
    (executeFunction ConnState.ready [ArgValue.json (Json.num 1)]
      { run := RunAttempt.completed successRun, deleteSucceeds := true }).outcome =
      Except.ok (Json.num 5) :=
  (executeFunction_settles_from_envelope [ArgValue.json (Json.num 1)]
    { run := RunAttempt.completed successRun, deleteSucceeds := true } successRun
    (Envelope.success (Json.num 5)) rfl rfl
    (by simp [successRun, parseEnvelopeLine_renderEnvelope])).1 (Json.num 5) rfl

/-- C2: invoking a member the remote module does not export still terminates
the generated program with exit status zero and a failure envelope on stdout,
and the caller's call fails with `RemoteLogicError`, not a transport-level
error. -/
theorem missing_export_remote_logic_error (m : RemoteModule) (functionName : String)
    (jargs : List Json) (del : Bool)
    (habs : m.exports.lookup functionName = none) :
    (runGeneratedProgram (some m) functionName jargs).exitCode = 0 ∧
    (runGeneratedProgram (some m) functionName jargs).stdoutLines =
      [renderEnvelope (Envelope.failure (("Function ") ++ functionName ++ (" is not exported")))] ∧
    (executeFunction ConnState.ready (jargs.map ArgValue.json)
      { run := RunAttempt.completed (runGeneratedProgram (some m) functionName jargs)
        deleteSucceeds := del }).outcome =
      Except.error (RemoteError.remoteLogicError
        (("Function ") ++ functionName ++ (" is not exported"))) := by
  have hprog : runGeneratedProgram (some m) functionName jargs =
      { exitCode := 0
        stdoutLines :=
          [renderEnvelope (Envelope.failure (("Function ") ++ functionName ++ (" is not exported")))]
        stderr := "" } := by
    simp [runGeneratedProgram, habs]
  refine ⟨by rw [hprog], by rw [hprog], ?_⟩
  simp [executeFunction, map_json_serializable, hprog, parseEnvelopeLine_renderEnvelope]

/-- C2 witness: calling `missing` on a module exporting nothing yields the
failure envelope and a `RemoteLogicError`. -/
theorem missing_export_remote_logic_error_witness :
    (runGeneratedProgram (some emptyModule) ("missing") []).exitCode = 0 ∧
    (runGeneratedProgram (some emptyModule) ("missing") []).stdoutLines =
      [renderEnvelope (Envelope.failure (("Function ") ++ "missing" ++ (" is not exported")))] ∧
    (executeFunction ConnState.ready (([] : List Json).map ArgValue.json)
      { run := RunAttempt.completed (runGeneratedProgram (some emptyModule) ("missing") [])
        deleteSucceeds := true }).outcome =
      Except.error (RemoteError.remoteLogicError
        (("Function ") ++ "missing" ++ (" is not exported"))) :=
  missing_export_remote_logic_error emptyModule ("missing") [] true rfl

/-- C3: a configured pre-build step that exits non-zero fails `connect()` with
`BuildError` carrying the captured stderr, and the connection ends `Errored`,
never `Ready`. -/
theorem preBuild_failure_build_error (cfg : SshRemoteCodeConfig) (build : BuildRun)
    (hpre : cfg.preBuildCommand = true) (hexit : build.exitCode ≠ 0) :
    connect cfg HandshakeOutcome.ok build =
      (ConnState.errored, some (RemoteError.buildError build.stderr)) ∧
    (connect cfg HandshakeOutcome.ok build).1 ≠ ConnState.ready := by
  have h : connect cfg HandshakeOutcome.ok build =
      (ConnState.errored, some (RemoteError.buildError build.stderr)) := by
    simp [connect, hpre, hexit]
  refine ⟨h, ?_⟩
  rw [h]
  simp

/-- C3 witness: the demo configuration (whose pre-build flag is set) with a
failing build command leaves the connection `Errored` with a `BuildError`. -/
theorem preBuild_failure_build_error_witness :
    connect ubuntuConfig HandshakeOutcome.ok failedBuild =
      (ConnState.errored, some (RemoteError.buildError failedBuild.stderr)) ∧
    (connect ubuntuConfig HandshakeOutcome.ok failedBuild).1 ≠ ConnState.ready :=
  preBuild_failure_build_error ubuntuConfig failedBuild rfl (by decide)

/-- C4: on a `Ready` connection, per-invocation failures leave the connection
`Ready`, and reaching `Errored` is possible only through a connection-level
error. -/
theorem invocation_errors_leave_ready (args : List ArgValue) (env : ExecEnv) :
    (∀ e, (executeFunction ConnState.ready args env).outcome = Except.error e →
      e.isInvocationLevel = true →
      (executeFunction ConnState.ready args env).connState = ConnState.ready) ∧
    ((executeFunction ConnState.ready args env).connState = ConnState.errored →
      ∃ e, (executeFunction ConnState.ready args env).outcome = Except.error e ∧
        e.isConnectionLevel = true) := by
  by_cases hser : args.all ArgValue.serializable = true
  · cases henv : env.run with
    | transportFailure =>
      constructor
      · intro e he hinv
        simp [executeFunction, hser, henv] at he
        rw [← he] at hinv
        exact absurd hinv (by decide)
      · intro _
        refine ⟨RemoteError.networkError, ?_, rfl⟩
        simp [executeFunction, hser, henv]
    | completed r =>
      have hcs : (executeFunction ConnState.ready args env).connState = ConnState.ready := by
        simp [executeFunction, hser, henv]
        try split <;> rfl
      constructor
      · intro e _ _
        exact hcs
      · intro habs
        rw [hcs] at habs
        exact absurd habs (by decide)
  · have hser' : args.all ArgValue.serializable = false := by
      cases h : args.all ArgValue.serializable with
      | false => rfl
      | true => exact absurd h hser
    constructor
    · intro e _ _
      simp [executeFunction, hser']
    · intro habs
      simp [executeFunction, hser'] at habs

/-- C4 witness: a run producing no envelope fails the call with
`RemoteExecutionError` and the connection is still `Ready`. -/
theorem invocation_errors_leave_ready_witness :
    (executeFunction ConnState.ready []
      { run := RunAttempt.completed silentRun, deleteSucceeds := true }).connState =
      ConnState.ready :=
  (invocation_errors_leave_ready []
    { run := RunAttempt.completed silentRun, deleteSucceeds := true }).1
    (RemoteError.remoteExecutionError 1 (String.intercalate ("\n") []) "") rfl rfl

/-- C5: `disconnect()` is idempotent — from any state it succeeds without
error, ends in `Closed`, and running it again changes nothing. -/
theorem disconnect_idempotent :
    ∀ s, disconnect s = (ConnState.closed, none) ∧
      disconnect (disconnect s).1 = disconnect s := by
  intro s
  constructor
  · cases s <;> rfl
  · cases s <;> rfl

/-- C6: on every exit path of a dispatched invocation the executor attempts the
artifact deletion, and whether that deletion succeeds never changes the
invocation's own outcome. -/
theorem cleanup_attempted_not_masking (args : List ArgValue) (run : RunAttempt) (d1 d2 : Bool)
    (hser : args.all ArgValue.serializable = true) :
    (executeFunction ConnState.ready args
      { run := run, deleteSucceeds := d1 }).deleteAttempted = true ∧
    (executeFunction ConnState.ready args { run := run, deleteSucceeds := d1 }).outcome =
      (executeFunction ConnState.ready args { run := run, deleteSucceeds := d2 }).outcome := by
  cases run with
  | transportFailure => exact ⟨by simp [executeFunction, hser], by simp [executeFunction, hser]⟩
  | completed r =>
    rcases hl : r.stdoutLines.filterMap parseEnvelopeLine with _ | ⟨e, tail⟩
    · exact ⟨by simp [executeFunction, hser, hl], by simp [executeFunction, hser, hl]⟩
    · rcases e with v | msg
      · rcases tail with _ | ⟨e2, t2⟩
        · exact ⟨by simp [executeFunction, hser, hl], by simp [executeFunction, hser, hl]⟩
        · exact ⟨by simp [executeFunction, hser, hl], by simp [executeFunction, hser, hl]⟩
      · rcases tail with _ | ⟨e2, t2⟩
        · exact ⟨by simp [executeFunction, hser, hl], by simp [executeFunction, hser, hl]⟩
        · exact ⟨by simp [executeFunction, hser, hl], by simp [executeFunction, hser, hl]⟩

/-- C6 witness: with a failing deletion the call still reports its own result,
and the deletion was attempted. -/
theorem cleanup_attempted_not_masking_witness :
    (executeFunction ConnState.ready []
      { run := RunAttempt.completed silentRun, deleteSucceeds := false }).deleteAttempted = true ∧
    (executeFunction ConnState.ready []
      { run := RunAttempt.completed silentRun, deleteSucceeds := false }).outcome =
      (executeFunction ConnState.ready []
        { run := RunAttempt.completed silentRun, deleteSucceeds := true }).outcome :=
  cleanup_attempted_not_masking [] (RunAttempt.completed silentRun) false true rfl

/-- C7: values and argument lists round-trip through the JSON wire encoding —
parsing the rendered success envelope yields exactly the value the remote
function returned, and a rendered argument array parses back to itself. -/
theorem envelope_roundtrip (v : Json) (args : List Json) :
    parseEnvelopeLine (renderEnvelope (Envelope.success v)) = some (Envelope.success v) ∧
    Json.parse (Json.render (Json.arr args)) = some (Json.arr args) :=
  ⟨parseEnvelopeLine_renderEnvelope (Envelope.success v), Json.parse_render (Json.arr args)⟩

/-- C8: `setLightBrightness` returns `false` and issues no HTTP request when
the brightness is outside 0–255, and otherwise behaves exactly as
`turnLightOn` with that brightness. -/
theorem setLightBrightness_range (srv : HAServer) (entityId : String) (b : Int) :
    (b < 0 ∨ b > 255 → setLightBrightness srv entityId b = (false, [])) ∧
    (0 ≤ b ∧ b ≤ 255 →
      setLightBrightness srv entityId b = turnLightOn srv entityId (some b) none) := by
  constructor
  · intro h
    simp [setLightBrightness, h]
  · intro h
    have hout : ¬ (b < 0 ∨ b > 255) := by omega
    simp [setLightBrightness, hout]

/-- C8 witness: brightness 300 is rejected with no request; brightness 128 is
exactly a `turnLightOn`. -/
theorem setLightBrightness_range_witness :
    setLightBrightness downServer ("light.bedroom") 300 = (false, []) ∧
    setLightBrightness downServer ("light.bedroom") 128 =
      turnLightOn downServer ("light.bedroom") (some 128) none :=
  ⟨(setLightBrightness_range downServer ("light.bedroom") 300).1 (Or.inr (by omega)),
   (setLightBrightness_range downServer ("light.bedroom") 128).2 (by omega)⟩

/-- C9: every entity id `getAllLights` returns starts with `light.`, and a
failing states request yields the empty list. -/
theorem getAllLights_light_names (srv : HAServer) :
    (∀ s ∈ (getAllLights srv).1, strStartsWith s ("light.") = true) ∧
    (srv.statesResp = none → (getAllLights srv).1 = []) := by
  constructor
  · intro s hs
    cases hst : srv.statesResp with
    | none => simp [getAllLights, hst] at hs
    | some states =>
      simp only [getAllLights, hst, List.mem_map, List.mem_filter] at hs
      obtain ⟨st, ⟨_, hpref⟩, hid⟩ := hs
      rw [← hid]
      exact hpref
  · intro h
    simp [getAllLights, h]

/-- C9 witness: on a server listing `light.bedroom` and `switch.fan` the
returned id has the `light.` prefix, and on a down server the list is empty. -/
theorem getAllLights_light_names_witness :
    strStartsWith ("light.bedroom") ("light.") = true ∧ (getAllLights downServer).1 = [] :=
  ⟨(getAllLights_light_names upServer).1 ("light.bedroom") (by decide),
   (getAllLights_light_names downServer).2 rfl⟩

/-- C10: `toggleLight` returns `false` without any service call when the state
is unavailable, delegates to `turnLightOff` when the light is on, and to
`turnLightOn` without brightness when it is off. -/
theorem toggleLight_cases (srv : HAServer) (e : String) :
    ((getLightState srv e).1 = none →
      toggleLight srv e = (false, [HttpRequest.get (statePath e)])) ∧
    (∀ cur, (getLightState srv e).1 = some cur → cur.state = "on" →
      (toggleLight srv e).1 = (turnLightOff srv e).1) ∧
    (∀ cur, (getLightState srv e).1 = some cur → cur.state = "off" →
      (toggleLight srv e).1 = (turnLightOn srv e none none).1) := by
  have hreq : (getLightState srv e).2 = [HttpRequest.get (statePath e)] := by
    cases hg : srv.getStateResp e <;> simp [getLightState, hg]
  refine ⟨?_, ?_, ?_⟩
  · intro h
    simp [toggleLight, h, hreq]
  · intro cur hc hon
    simp [toggleLight, hc, hon]
  · intro cur hc hoff
    have hnoton : ¬ cur.state = "on" := by
      rw [hoff]
      decide
    simp [toggleLight, hc, hnoton]

/-- C10 witness: a down server toggles to `false` with only the GET issued; a
light that is on is turned off; a light that is off is turned on. -/
theorem toggleLight_cases_witness :
    toggleLight downServer ("light.a") = (false, [HttpRequest.get (statePath ("light.a"))]) ∧
    (toggleLight upServer ("light.a")).1 = (turnLightOff upServer ("light.a")).1 ∧
    (toggleLight offServer ("light.a")).1 = (turnLightOn offServer ("light.a") none none).1 :=
  ⟨(toggleLight_cases downServer ("light.a")).1 rfl,
   (toggleLight_cases upServer ("light.a")).2.1 _ rfl rfl,
   (toggleLight_cases offServer ("light.a")).2.2 _ rfl rfl⟩

end SshRemote
